import Mathlib

/-!
Verification of the Degree/Credit Requirement Engine and Semester Planning
model of the EducationSystem repository (the student plan page).

The embedding mirrors the TypeScript source:
  * `getPlanConfig` — the requirement-profile resolver (decision table over
    education level, course name and desired degree);
  * `creditsByCategory`, `certCredits`, `totalCredits`, `progress` — the
    credit-source aggregator and progress projector;
  * `handleToggleDokaksaPreset` / `handleAddDokaksa` — the two insertion
    paths for self-study ("dokaksa") credit entries;
  * `PlanState` with `handleSubjectClick`, `handleRemoveAssigned`,
    `handleDeleteSemester`, `handleDeleteSubject`, `handleConfirmAddSemester`,
    `handleAddKisu`, `handleDateChange`, `handleUpdateSemester` — the
    semester/cohort plan and its operations;
  * `mergeClassStart` — the class_start reconciliation performed at load.

Korean union-type literals of the source are rendered as Lean inductive
constructors: 전공 = `major`, 교양 = `liberal`, 일반 = `general`.
JavaScript `Record<number, T>` objects are rendered as association lists
with unique keys (`lookupD`/`setKey`/`eraseKey` model `obj[k] ?? default`,
`{...obj, [k]: v}` and `delete obj[k]`); a key that is absent reads as the
default, exactly as the source always reads the records with `?? []`.
Machine numbers of the source are natural numbers here: all quantities
involved (credits, counts, ids, years, terms) are non-negative integers in
every reachable state of the page.
-/

/-- JavaScript `String.prototype.includes` on explicit character lists:
`startsWithCl l pat` is true iff `pat` is an initial segment of `l`. -/
def startsWithCl : List Char → List Char → Bool
  | _, [] => true
  | [], _ :: _ => false
  | a :: as, b :: bs => a == b && startsWithCl as bs

/-- `hasSubCl l pat` is true iff `pat` occurs as a contiguous segment of `l`. -/
def hasSubCl : List Char → List Char → Bool
  | [], pat => pat.isEmpty
  | a :: t, pat => startsWithCl (a :: t) pat || hasSubCl t pat

/-- JavaScript `s.includes(pat)`. -/
def strContains (s pat : String) : Bool :=
  hasSubCl s.toList pat.toList

/-- JavaScript `s?.includes(pat)` — `none` (null/undefined) yields `false`. -/
def optIncludes (s : Option String) (pat : String) : Bool :=
  match s with
  | some s => strContains s pat
  | none => false

/-- Source `type SubjectCategory = '전공' | '교양' | '일반'`:
`major` = 전공, `liberal` = 교양, `general` = 일반. -/
inductive SubjectCategory where
  | major
  | liberal
  | general
deriving DecidableEq

/-- Source `interface Subject` (page-level subject record); `type` is
`theory` = 이론 / `practice` = 실습, `subject_type` is
`some true` = 필수(required), `some false` = 선택(elective), `none` = null. -/
structure Subject where
  id : Nat
  category : SubjectCategory
  name : String
  credits : Nat
  isPractice : Bool
  subject_required : Option Bool
  student_id : Option String
deriving DecidableEq

/-- Source `interface PrevSubject` (prior-institution subject). -/
structure PrevSubject where
  id : String
  student_id : String
  category : SubjectCategory
  name : String
  credits : Nat
deriving DecidableEq

/-- Source `interface CreditCert` (certificate credit grant). -/
structure CreditCert where
  id : String
  student_id : String
  name : String
  credits : Nat
  acquired_date : Option String
deriving DecidableEq

/-- Source `interface DokaksaEntry` (self-study exam credit);
`credit_type` ranges over 전공/일반/교양 = `major`/`general`/`liberal`. -/
structure DokaksaEntry where
  id : String
  student_id : String
  stage : String
  subject_name : String
  credits : Nat
  credit_type : SubjectCategory
deriving DecidableEq

/-- Source `interface DokaksaPreset`; `category` is free text (e.g. a major
name such as "국어국문학"), compared by the insertion rule with the
student's free-text major. -/
structure DokaksaPreset where
  stage : String
  category : String
  name : String
  credits : Nat
  subject_required : Bool
  sort_order : Nat
deriving DecidableEq

-- ── Requirement profile resolver (`getPlanConfig`) ──────────────────────

/-- Source `interface PlanTarget`. -/
structure PlanTarget where
  label : String
  categories : List SubjectCategory
  target : Nat
  color : String
deriving DecidableEq

/-- Source `interface PracticeRequirement`. -/
structure PracticeRequirement where
  required : Nat
  elective : Nat
deriving DecidableEq

/-- Source `interface PlanConfig`. -/
structure PlanConfig where
  isHighSchool : Bool
  totalTarget : Nat
  subjectTarget : Option Nat
  targets : List PlanTarget
  practice : Option PracticeRequirement
deriving DecidableEq

/-- Source `const JUNGTAE_GROUP` — the attrition group of education levels. -/
def JUNGTAE_GROUP : List String := ["고졸", "2년제중퇴", "3년제중퇴", "4년제중퇴"]

/-- Source `const TWOTHREE_GRAD`. -/
def TWOTHREE_GRAD : List String := ["2년제졸업", "3년제졸업"]

/-- Source `const GRAD_ALL`. -/
def GRAD_ALL : List String := ["2년제졸업", "3년제졸업", "4년제졸업"]

/-- Source `getPlanConfig(educationLevel, courseName, desiredDegree)`:
the requirement-profile decision table, first match wins. -/
def getPlanConfig (educationLevel courseName desiredDegree : Option String) :
    PlanConfig :=
  -- 실습 과정은 학력과 무관하게 별도 레이아웃
  if optIncludes courseName "실습" then
    { isHighSchool := false, totalTarget := 6, subjectTarget := some 6,
      targets := [⟨"전공", [SubjectCategory.major], 6, "#3182F6"⟩],
      practice := some ⟨4, 2⟩ }
  else
    let level := educationLevel.getD ""
    -- 중퇴군 + 학사 → 140학점
    if JUNGTAE_GROUP.contains level && desiredDegree == some "학사" then
      { isHighSchool := true, totalTarget := 140, subjectTarget := none,
        targets := [⟨"전공", [SubjectCategory.major], 60, "#3182F6"⟩,
                    ⟨"교양", [SubjectCategory.liberal], 30, "#059669"⟩,
                    ⟨"일반", [SubjectCategory.general], 50, "#D97706"⟩],
        practice := none }
    -- 중퇴군 → 없음/전문학사 → 80학점
    else if JUNGTAE_GROUP.contains level then
      { isHighSchool := true, totalTarget := 80, subjectTarget := none,
        targets := [⟨"전공", [SubjectCategory.major], 45, "#3182F6"⟩,
                    ⟨"교양", [SubjectCategory.liberal], 15, "#059669"⟩,
                    ⟨"일반", [SubjectCategory.general], 20, "#D97706"⟩],
        practice := none }
    -- 2년제/3년제 졸업 + 학사 → 140학점
    else if TWOTHREE_GRAD.contains level && desiredDegree == some "학사" then
      { isHighSchool := true, totalTarget := 140, subjectTarget := none,
        targets := [⟨"전공", [SubjectCategory.major], 60, "#3182F6"⟩,
                    ⟨"교양", [SubjectCategory.liberal], 30, "#059669"⟩,
                    ⟨"일반", [SubjectCategory.general], 50, "#D97706"⟩],
        practice := none }
    -- 졸업군 → 없음 → 51학점 전공만 (전적대 불필요)
    else if GRAD_ALL.contains level then
      { isHighSchool := false, totalTarget := 51, subjectTarget := some 8,
        targets := [⟨"전공", [SubjectCategory.major], 51, "#3182F6"⟩],
        practice := none }
    -- 기본값
    else
      { isHighSchool := false, totalTarget := 51, subjectTarget := some 8,
        targets := [⟨"전공", [SubjectCategory.major], 51, "#3182F6"⟩],
        practice := none }

/-- Practicum profile (branch 1 of `getPlanConfig`). -/
def practicumConfig : PlanConfig :=
  { isHighSchool := false, totalTarget := 6, subjectTarget := some 6,
    targets := [⟨"전공", [SubjectCategory.major], 6, "#3182F6"⟩],
    practice := some ⟨4, 2⟩ }

/-- Extended profile A — 140 credits, {전공 60, 교양 30, 일반 50}. -/
def extendedConfigA : PlanConfig :=
  { isHighSchool := true, totalTarget := 140, subjectTarget := none,
    targets := [⟨"전공", [SubjectCategory.major], 60, "#3182F6"⟩,
                ⟨"교양", [SubjectCategory.liberal], 30, "#059669"⟩,
                ⟨"일반", [SubjectCategory.general], 50, "#D97706"⟩],
    practice := none }

/-- Extended profile B — 80 credits, {전공 45, 교양 15, 일반 20}. -/
def extendedConfigB : PlanConfig :=
  { isHighSchool := true, totalTarget := 80, subjectTarget := none,
    targets := [⟨"전공", [SubjectCategory.major], 45, "#3182F6"⟩,
                ⟨"교양", [SubjectCategory.liberal], 15, "#059669"⟩,
                ⟨"일반", [SubjectCategory.general], 20, "#D97706"⟩],
    practice := none }

/-- Minimal profile — 51 credits, subject-count target 8, {전공 51}. -/
def minimalConfig : PlanConfig :=
  { isHighSchool := false, totalTarget := 51, subjectTarget := some 8,
    targets := [⟨"전공", [SubjectCategory.major], 51, "#3182F6"⟩],
    practice := none }

/-- Sum of the per-category targets of a profile. -/
def targetsSum (c : PlanConfig) : Nat :=
  (c.targets.map (·.target)).sum

-- ── Record-as-association-list helpers ──────────────────────────────────

/-- The semester-subject assignment record `Record<number, number[]>`:
an association list from semester id to the list of assigned subject ids. -/
abbrev SubjMap : Type := List (Nat × List Nat)

/-- First entry stored under key `k` (JavaScript property read `obj[k]`). -/
def lookupEntry {α : Type} : List (Nat × α) → Nat → Option α
  | [], _ => none
  | e :: rest, k => if e.1 == k then some e.2 else lookupEntry rest k

/-- Source read pattern `semesterSubjects[k] ?? []`. -/
def lookupD (m : SubjMap) (k : Nat) : List Nat :=
  (lookupEntry m k).getD []

/-- JavaScript `{...obj, [k]: v}`: overwrite the entry under `k` in place,
or append a new entry when `k` is absent. -/
def setKey {α : Type} : List (Nat × α) → Nat → α → List (Nat × α)
  | [], k, v => [(k, v)]
  | e :: rest, k, v => if e.1 == k then (k, v) :: rest else e :: setKey rest k v

/-- JavaScript `delete obj[k]`. -/
def eraseKey {α : Type} (m : List (Nat × α)) (k : Nat) : List (Nat × α) :=
  m.filter (fun e => e.1 != k)

/-- Source `assignedIds = Object.values(semesterSubjects).flat()`. -/
def assignedIdsOf (m : SubjMap) : List Nat :=
  (m.map (·.2)).flatten

-- ── Credit source aggregator ────────────────────────────────────────────

/-- Source update pattern `map[c] = (map[c] ?? 0) + n` on the per-category
credit record (the record is total here: an absent key reads as 0). -/
def bumpCat (f : SubjectCategory → Nat) (c : SubjectCategory) (n : Nat) :
    SubjectCategory → Nat :=
  fun c' => if c' = c then f c' + n else f c'

/-- Source `creditsByCategory`: assigned subjects (looked up in the subject
catalog by id, missing ids skipped), then prior-institution subjects, then
self-study entries folded in under their `credit_type`. -/
def creditsByCategory (m : SubjMap) (subjects : List Subject)
    (prevSubjects : List PrevSubject) (dokaksaList : List DokaksaEntry) :
    SubjectCategory → Nat :=
  let m0 : SubjectCategory → Nat := fun _ => 0
  let m1 := (assignedIdsOf m).foldl (fun f sid =>
    match subjects.find? (fun s => s.id == sid) with
    | some s => bumpCat f s.category s.credits
    | none => f) m0
  -- 전적대 과목
  let m2 := prevSubjects.foldl (fun f s => bumpCat f s.category s.credits) m1
  -- 독학사 — credit_type(전공/일반/교양)을 카테고리로 합산
  dokaksaList.foldl (fun f d => bumpCat f d.credit_type d.credits) m2

/-- Source `certCredits = creditCerts.reduce((s, c) => s + c.credits, 0)`. -/
def certCredits (creditCerts : List CreditCert) : Nat :=
  creditCerts.foldl (fun s c => s + c.credits) 0

/-- Source `dokaksaCredits = dokaksaList.reduce((s, d) => s + d.credits, 0)`. -/
def dokaksaCredits (dokaksaList : List DokaksaEntry) : Nat :=
  dokaksaList.foldl (fun s d => s + d.credits) 0

/-- Source `Object.values(creditsByCategory).reduce((a, b) => a + b, 0)`:
the keys ever present in the record are exactly the three categories, and an
absent key stands for 0, so the sum of the record's values is the sum of the
total function over the three categories. -/
def sumByCategory (f : SubjectCategory → Nat) : Nat :=
  f SubjectCategory.major + f SubjectCategory.liberal + f SubjectCategory.general

/-- Source `totalCredits = Object.values(creditsByCategory).reduce(...) +
certCredits`. -/
def totalCredits (m : SubjMap) (subjects : List Subject)
    (prevSubjects : List PrevSubject) (dokaksaList : List DokaksaEntry)
    (creditCerts : List CreditCert) : Nat :=
  sumByCategory (creditsByCategory m subjects prevSubjects dokaksaList)
    + certCredits creditCerts

/-- Total credits of the assigned subjects (each assigned id looked up in
the catalog; a missing id contributes nothing, as in `creditsByCategory`). -/
def assignedCreditsTotal (m : SubjMap) (subjects : List Subject) : Nat :=
  ((assignedIdsOf m).map (fun sid =>
    match subjects.find? (fun s => s.id == sid) with
    | some s => s.credits
    | none => 0)).sum

/-- Total credits of the prior-institution subjects. -/
def prevCreditsTotal (prevSubjects : List PrevSubject) : Nat :=
  (prevSubjects.map (·.credits)).sum

/-- Source `progress = Math.min(Math.round((totalCredits /
planConfig.totalTarget) * 100), 100)`.  For `target > 0` and natural
operands, `Math.round((total / target) * 100)` is
`⌊100 * total / target + 1/2⌋ = (200 * total + target) / (2 * target)`
in natural-number division, which is how it is rendered here. -/
def progress (total target : Nat) : Nat :=
  min ((200 * total + target) / (2 * target)) 100

-- ── Self-study (독학사) insertion paths ─────────────────────────────────

/-- Row shape of an insert into `student_dokaksa` as issued by the page;
`credit_type = none` means the insert statement does not set the column at
all (it is left to the database). -/
structure DokaksaInsertRow where
  stage : String
  subject_name : String
  credits : Nat
  credit_type : Option SubjectCategory
deriving DecidableEq

/-- Source rule in `handleToggleDokaksaPreset`:
`dokaksaForm.stage === '1단계' ? '교양' : student?.major &&
preset.category === student.major ? '전공' : '일반'`.  A `none` or empty
student major is falsy, so it routes to 일반 (`general`). -/
def dokaksaToggleCreditType (formStage : String) (studentMajor : Option String)
    (presetCategory : String) : SubjectCategory :=
  if formStage == "1단계" then SubjectCategory.liberal
  else
    match studentMajor with
    | some m =>
        if m != "" && presetCategory == m then SubjectCategory.major
        else SubjectCategory.general
    | none => SubjectCategory.general

/-- Row inserted by `handleToggleDokaksaPreset` (the branch that adds a new
entry): stage from the form, name/credits from the preset, `credit_type`
computed by `dokaksaToggleCreditType`. -/
def handleToggleDokaksaPresetRow (formStage : String)
    (studentMajor : Option String) (preset : DokaksaPreset) :
    DokaksaInsertRow :=
  { stage := formStage, subject_name := preset.name, credits := preset.credits,
    credit_type := some (dokaksaToggleCreditType formStage studentMajor
      preset.category) }

/-- Row inserted by `handleAddDokaksa` (the manual-entry popup): stage, name
and credits from the form; the insert carries no `credit_type` column. -/
def handleAddDokaksaRow (formStage subjectName : String) (credits : Nat) :
    DokaksaInsertRow :=
  { stage := formStage, subject_name := subjectName, credits := credits,
    credit_type := none }

-- ── Semester/cohort plan ────────────────────────────────────────────────

/-- Source `interface Semester`; `class_number` is the cohort (기수). -/
structure Semester where
  id : Nat
  year : String
  term : Nat
  class_number : Nat
  label : String
  months : String
deriving DecidableEq

/-- Source `interface SemesterDates`. -/
structure SemesterDates where
  start : String
  stop : String
deriving DecidableEq

/-- Source `const INITIAL_SEMESTERS`. -/
def INITIAL_SEMESTERS : List Semester :=
  [⟨0, "2025", 1, 1, "", ""⟩, ⟨1, "2025", 2, 1, "", ""⟩]

/-- Source `const MAX_PER_SEMESTER = 8`. -/
def MAX_PER_SEMESTER : Nat := 8

/-- Source `const MAX_PER_YEAR = 14`. -/
def MAX_PER_YEAR : Nat := 14

/-- The client-held plan state: the semester list, the assignment record,
the dates record, and the currently selected semester id. -/
structure PlanState where
  semesters : List Semester
  semesterSubjects : SubjMap
  semesterDates : List (Nat × SemesterDates)
  selectedSemester : Nat
deriving DecidableEq

/-- Source grouping key `` `${s.year}-${s.term}` ``. -/
def groupKey (s : Semester) : String :=
  s.year ++ "-" ++ toString s.term

/-- Source `getYearSubjectCount(year)`. -/
def getYearSubjectCount (st : PlanState) (year : String) : Nat :=
  ((st.semesters.filter (fun s => s.year == year)).map
    (fun s => (lookupD st.semesterSubjects s.id).length)).sum

/-- Source `isSubjectUsed(subjectId)`. -/
def isSubjectUsed (st : PlanState) (subjectId : Nat) : Bool :=
  (assignedIdsOf st.semesterSubjects).contains subjectId

/-- Source `handleSubjectClick(subjectId)`: reject when the subject is
already used anywhere, when the half-year group of the selected semester is
at the per-semester-group cap, or when the selected semester's year is at
the yearly cap; otherwise append the subject to the selected semester's
list.  The rejecting branches `alert` and return with no state change. -/
def handleSubjectClick (st : PlanState) (subjectId : Nat) : PlanState :=
  if isSubjectUsed st subjectId then st
  else
    -- 현재 선택된 기수(selectedSemester)에 추가
    let targetSemId := st.selectedSemester
    let current := lookupD st.semesterSubjects targetSemId
    let curSem := st.semesters.find? (fun s => s.id == targetSemId)
    -- 같은 학기 그룹(1기+2기+... 합산) 과목 수
    let gk : String := match curSem with
      | some s => groupKey s
      | none => ""
    let groupSems := st.semesters.filter (fun s => groupKey s == gk)
    let groupCount := (groupSems.map
      (fun s => (lookupD st.semesterSubjects s.id).length)).sum
    -- 연간 과목 수
    let yearCount := match curSem with
      | some s => getYearSubjectCount st s.year
      | none => 0
    if MAX_PER_SEMESTER ≤ groupCount then st
    else if MAX_PER_YEAR ≤ yearCount then st
    else
      { st with semesterSubjects :=
          setKey st.semesterSubjects targetSemId (current ++ [subjectId]) }

/-- Source `handleRemoveAssigned(_semesterId, subjectId)`: within the
half-year group of the currently selected semester (falling back to the
first semester), remove the subject from the first cohort list containing
it. -/
def handleRemoveAssigned (st : PlanState) (subjectId : Nat) : PlanState :=
  let curSem := match st.semesters.find?
      (fun s => s.id == st.selectedSemester) with
    | some s => some s
    | none => st.semesters.head?
  let gk : String := match curSem with
    | some s => groupKey s
    | none => ""
  let groupSems := st.semesters.filter (fun s => groupKey s == gk)
  match groupSems.find?
      (fun s => (lookupD st.semesterSubjects s.id).contains subjectId) with
  | some sem =>
      let pruned := (lookupD st.semesterSubjects sem.id).filter
        (fun i => i != subjectId)
      { st with semesterSubjects := setKey st.semesterSubjects sem.id pruned }
  | none => st

/-- Source `handleDateChange(semesterId, field, value)`;
`field` picks the start (`true`) or end (`false`) date. -/
def handleDateChange (st : PlanState) (semesterId : Nat) (isStart : Bool)
    (value : String) : PlanState :=
  let old := (lookupEntry st.semesterDates semesterId).getD ⟨"", ""⟩
  let upd := if isStart then { old with start := value }
             else { old with stop := value }
  { st with semesterDates := setKey st.semesterDates semesterId upd }

/-- Source `handleUpdateSemester(semId, 'year', value)`. -/
def handleUpdateSemesterYear (st : PlanState) (semId : Nat) (value : String) :
    PlanState :=
  let sems := st.semesters.map
    (fun s => if s.id == semId then { s with year := value } else s)
  { st with semesters := sems }

/-- Source `handleUpdateSemester(semId, 'term', value)`. -/
def handleUpdateSemesterTerm (st : PlanState) (semId : Nat) (value : Nat) :
    PlanState :=
  let sems := st.semesters.map
    (fun s => if s.id == semId then { s with term := value } else s)
  { st with semesters := sems }

/-- Source `getDefaultDates(year, term)`: term 1 → Nov 15 of the prior year
to May 5; term 2 → May 15 to Nov 5.  `parseInt(year)` is rendered with
`String.toNat?` (the page only feeds four-digit year strings here). -/
def getDefaultDates (year : String) (term : Nat) : SemesterDates :=
  let y := year.toNat?.getD 0
  if term == 1 then ⟨toString (y - 1) ++ "-11-15", toString y ++ "-05-05"⟩
  else ⟨toString y ++ "-05-15", toString y ++ "-11-05"⟩

/-- Source `handleConfirmAddSemester()` with the form's year and term:
fresh id `last.id + 1` (0 on an empty list, from `?.id ?? -1` plus one),
cohort number `count of the (year, term) group + 1`, default dates, and the
new semester becomes selected. -/
def handleConfirmAddSemester (st : PlanState) (year : String) (term : Nat) :
    PlanState :=
  let newId := match st.semesters.getLast? with
    | some s => s.id + 1
    | none => 0
  let sameGroup := st.semesters.filter
    (fun s => s.year == year && s.term == term)
  let classNumber := sameGroup.length + 1
  { st with
    semesters := st.semesters ++ [⟨newId, year, term, classNumber, "", ""⟩],
    semesterDates := setKey st.semesterDates newId (getDefaultDates year term),
    selectedSemester := newId }

/-- Source `handleAddKisu()`: add a cohort to the group of the selected
semester (falling back to the first semester; with no semester at all the
source dereferences `undefined` and throws before any state change, which
this embedding renders as leaving the state unchanged). -/
def handleAddKisu (st : PlanState) : PlanState :=
  match (match st.semesters.find?
      (fun s => s.id == st.selectedSemester) with
    | some s => some s
    | none => st.semesters.head?) with
  | none => st
  | some curSem =>
      let newId := match st.semesters.getLast? with
        | some s => s.id + 1
        | none => 0
      let sameGroup := st.semesters.filter
        (fun s => s.year == curSem.year && s.term == curSem.term)
      let classNumber := sameGroup.length + 1
      { st with
        semesters := st.semesters ++
          [⟨newId, curSem.year, curSem.term, classNumber, "", ""⟩],
        semesterDates := setKey st.semesterDates newId
          (getDefaultDates curSem.year curSem.term) }

/-- Source `handleDeleteSemester(semId)`: reject when at most one semester
remains; otherwise drop the semester, cascade-delete its assignment-list
entry and its dates entry, and when the deleted semester was selected move
the selection to the first remaining cohort of its group, else to the last
remaining semester. -/
def handleDeleteSemester (st : PlanState) (semId : Nat) : PlanState :=
  if st.semesters.length ≤ 1 then st
  else
    let remaining := st.semesters.filter (fun s => s.id != semId)
    let subjects' := eraseKey st.semesterSubjects semId
    let dates' := eraseKey st.semesterDates semId
    -- 삭제된 semester가 선택된 경우, 남은 그룹의 첫 번째 또는 마지막 semester로 이동
    let selected' :=
      if st.selectedSemester == semId then
        match st.semesters.find? (fun s => s.id == semId) with
        | some deletedSem =>
            let remainingGroup := remaining.filter
              (fun s => groupKey s == groupKey deletedSem)
            match remainingGroup.head? with
            | some s => s.id
            | none => match remaining.getLast? with
              | some s => s.id
              | none => 0
        | none => match remaining.getLast? with
          | some s => s.id
          | none => 0
      else st.selectedSemester
  { semesters := remaining, semesterSubjects := subjects',
    semesterDates := dates', selectedSemester := selected' }

/-- Source `handleDeleteSubject(subjectId)`, the `setSemesterSubjects`
update: rebuild the record entry by entry with the deleted subject id
filtered out of every assignment list. -/
def handleDeleteSubject (m : SubjMap) (subjectId : Nat) : SubjMap :=
  m.map (fun e => (e.1, e.2.filter (fun sid => sid != subjectId)))

-- ── class_start reconciliation at load ──────────────────────────────────

/-- One cohort descriptor as parsed from the `class_start` string by
`parseClassStart` (a `Semester` whose id is the token index). -/
def classStartMatches (cs s : Semester) : Bool :=
  s.year == cs.year && s.term == cs.term && s.class_number == cs.class_number

/-- Source reconciliation of `class_start` against the loaded semester list
(`csItems` is the output of `parseClassStart`, `hasPlan` is whether a
persisted plan row was found).  With no match at all and no plan, the
parsed items replace the list wholesale (re-keyed by index); otherwise only
the descriptors not yet represented (by year, term and cohort number) are
appended with fresh ids starting at `max id + 1`.  (`Math.max()` of the
empty spread is `-Infinity` in the source; that point is unreachable
because the list always holds at least the seed semesters, and the base 0
used here is therefore never read.) -/
def mergeClassStart (finalSemesters : List Semester) (csItems : List Semester)
    (hasPlan : Bool) : List Semester :=
  if csItems.length > 0 then
    -- class_start 기반이 하나도 반영 안 된 상태면 (저장된 플랜 없음) 교체
    let hasAnyMatch := csItems.any (fun cs =>
      finalSemesters.any (fun s => classStartMatches cs s))
    if !hasAnyMatch && !hasPlan then
      -- 저장된 플랜 없음 → class_start로 완전히 초기화
      (csItems.enum).map (fun p => { p.2 with id := p.1 })
    else
      -- 저장된 플랜 있음 → 누락된 기수만 추가
      let nextId := (finalSemesters.map (·.id)).foldl max 0 + 1
      (csItems.foldl (fun acc cs =>
        if acc.1.any (fun s => classStartMatches cs s) then acc
        else (acc.1 ++ [{ cs with id := acc.2 }], acc.2 + 1))
        (finalSemesters, nextId)).1
  else finalSemesters

-- ── Plan operations as a transition system ──────────────────────────────

/-- The user-driven plan mutations (each constructor names the handler it
runs; `select` is the UI's `setSelectedSemester`). -/
inductive PlanOp where
  | click (subjectId : Nat)
  | select (semId : Nat)
  | removeAssigned (subjectId : Nat)
  | dateChange (semesterId : Nat) (isStart : Bool) (value : String)
  | updateYear (semId : Nat) (value : String)
  | updateTerm (semId : Nat) (value : Nat)
  | confirmAddSemester (year : String) (term : Nat)
  | addKisu
  | deleteSemester (semId : Nat)
  | deleteSubject (subjectId : Nat)
deriving DecidableEq

/-- Run one plan operation. -/
def applyOp (st : PlanState) : PlanOp → PlanState
  | .click sid => handleSubjectClick st sid
  | .select semId => { st with selectedSemester := semId }
  | .removeAssigned sid => handleRemoveAssigned st sid
  | .dateChange semId isStart v => handleDateChange st semId isStart v
  | .updateYear semId v => handleUpdateSemesterYear st semId v
  | .updateTerm semId v => handleUpdateSemesterTerm st semId v
  | .confirmAddSemester y t => handleConfirmAddSemester st y t
  | .addKisu => handleAddKisu st
  | .deleteSemester semId => handleDeleteSemester st semId
  | .deleteSubject sid =>
      { st with semesterSubjects := handleDeleteSubject st.semesterSubjects sid }

/-- Run a sequence of plan operations, left to right. -/
def applyOps (st : PlanState) (ops : List PlanOp) : PlanState :=
  ops.foldl applyOp st

/-- An operation sequence made only of subject-assignment attempts and
semester selections. -/
def isAssignOp : PlanOp → Bool
  | .click _ => true
  | .select _ => true
  | _ => false

-- ── Invariant vocabulary ────────────────────────────────────────────────

/-- Credits assigned to the half-year group `(year, term)`: the sum of the
assignment-list lengths over the cohorts sharing that year and term. -/
def groupSum (st : PlanState) (year : String) (term : Nat) : Nat :=
  ((st.semesters.filter (fun s => s.year == year && s.term == term)).map
    (fun s => (lookupD st.semesterSubjects s.id).length)).sum

/-- Both capacity caps hold for every half-year group and every year
(stated over the groups of the semesters present, which covers all
non-empty groups). -/
def CapsOK (st : PlanState) : Prop :=
  ∀ s ∈ st.semesters,
    groupSum st s.year s.term ≤ MAX_PER_SEMESTER ∧
    getYearSubjectCount st s.year ≤ MAX_PER_YEAR

/-- Semester ids are pairwise distinct (every construction path of the
page issues fresh ids). -/
def semIdsNodup (st : PlanState) : Prop :=
  (st.semesters.map (·.id)).Nodup

/-- Record keys are pairwise distinct (JavaScript object keys). -/
def keysNodup (m : SubjMap) : Prop :=
  (m.map (·.1)).Nodup

/-- Each subject id appears in at most one semester's assignment list. -/
def UniqueAssign (m : SubjMap) : Prop :=
  ∀ sid : Nat, m.countP (fun e => e.2.contains sid) ≤ 1

-- ── Claims ──────────────────────────────────────────────────────────────

/-- Claim C1: the profile resolver follows the spec's first-match decision
order — a course name containing 실습 yields the practicum profile
regardless of the other inputs; otherwise an attrition-group level with
desired degree 학사 yields the 140/60/30/50 profile; an attrition-group
level with any other desired degree yields the 80/45/15/20 profile; a
2-year or 3-year graduate seeking 학사 yields the 140/60/30/50 profile; and
every remaining case (including an unset or unrecognized education level)
yields the minimal 51-credit profile with subject-count target 8. -/
theorem C1_getPlanConfig_decision_order :
    ∀ el cn dd : Option String,
      (optIncludes cn "실습" = true →
        getPlanConfig el cn dd = practicumConfig) ∧
      (optIncludes cn "실습" = false →
        JUNGTAE_GROUP.contains (el.getD "") = true → dd = some "학사" →
        getPlanConfig el cn dd = extendedConfigA) ∧
      (optIncludes cn "실습" = false →
        JUNGTAE_GROUP.contains (el.getD "") = true → dd ≠ some "학사" →
        getPlanConfig el cn dd = extendedConfigB) ∧
      (optIncludes cn "실습" = false →
        JUNGTAE_GROUP.contains (el.getD "") = false →
        TWOTHREE_GRAD.contains (el.getD "") = true → dd = some "학사" →
        getPlanConfig el cn dd = extendedConfigA) ∧
      (optIncludes cn "실습" = false →
        JUNGTAE_GROUP.contains (el.getD "") = false →
        (TWOTHREE_GRAD.contains (el.getD "") && dd == some "학사") = false →
        getPlanConfig el cn dd = minimalConfig) := by
  intro el cn dd
  refine ⟨fun h1 => ?_, fun h1 h2 h3 => ?_, fun h1 h2 h3 => ?_,
    fun h1 h2 h3 h4 => ?_, fun h1 h2 h3 => ?_⟩
  · simp [getPlanConfig, h1, practicumConfig]
  · have h2' : el.getD "" ∈ JUNGTAE_GROUP := by simpa using h2
    simp [getPlanConfig, h1, h2', h3, extendedConfigA]
  · have h2' : el.getD "" ∈ JUNGTAE_GROUP := by simpa using h2
    simp [getPlanConfig, h1, h2', h3, extendedConfigB]
  · have h2' : el.getD "" ∉ JUNGTAE_GROUP := by simpa using h2
    have h3' : el.getD "" ∈ TWOTHREE_GRAD := by simpa using h3
    simp [getPlanConfig, h1, h2', h3', h4, extendedConfigA]
  · have h2' : el.getD "" ∉ JUNGTAE_GROUP := by simpa using h2
    have h3' : ¬(el.getD "" ∈ TWOTHREE_GRAD ∧ dd = some "학사") := by
      simpa using h3
    by_cases hg : el.getD "" ∈ GRAD_ALL
    · simp [getPlanConfig, h1, h2', h3', hg, minimalConfig]
    · simp [getPlanConfig, h1, h2', h3', hg, minimalConfig]

/-- Witness for C1: concrete inputs exercising the practicum branch and the
attrition-group bachelor branch. -/
theorem C1_getPlanConfig_decision_order_witness :
    getPlanConfig (some "고졸") (some "사회복지사2급 실습") none
        = practicumConfig ∧
      getPlanConfig (some "고졸") (some "사회복지사2급(구법)") (some "학사")
        = extendedConfigA :=
  ⟨(C1_getPlanConfig_decision_order (some "고졸") (some "사회복지사2급 실습")
      none).1 (by decide),
   (C1_getPlanConfig_decision_order (some "고졸") (some "사회복지사2급(구법)")
      (some "학사")).2.1 (by decide) (by decide) rfl⟩

/-- Every branch of the resolver returns a positive total target. -/
lemma getPlanConfig_totalTarget_pos (el cn dd : Option String) :
    0 < (getPlanConfig el cn dd).totalTarget := by
  by_cases h1 : optIncludes cn "실습" = true
  · simp [getPlanConfig, h1]
  · simp only [Bool.not_eq_true] at h1
    by_cases h2 : el.getD "" ∈ JUNGTAE_GROUP
    · by_cases h3 : dd = some "학사"
      · simp [getPlanConfig, h1, h2, h3]
      · simp [getPlanConfig, h1, h2, h3]
    · by_cases h4 : el.getD "" ∈ TWOTHREE_GRAD ∧ dd = some "학사"
      · simp [getPlanConfig, h1, h2, h4]
      · by_cases h5 : el.getD "" ∈ GRAD_ALL
        · simp [getPlanConfig, h1, h2, h4, h5]
        · simp [getPlanConfig, h1, h2, h4, h5]

/-- Claim C2: in every branch of the decision table the per-category
targets of the resolved profile sum exactly to its total target. -/
theorem C2_targets_sum_eq_totalTarget :
    ∀ el cn dd : Option String,
      targetsSum (getPlanConfig el cn dd) =
        (getPlanConfig el cn dd).totalTarget := by
  intro el cn dd
  by_cases h1 : optIncludes cn "실습" = true
  · simp [getPlanConfig, h1, targetsSum]
  · simp only [Bool.not_eq_true] at h1
    by_cases h2 : el.getD "" ∈ JUNGTAE_GROUP
    · by_cases h3 : dd = some "학사"
      · simp [getPlanConfig, h1, h2, h3, targetsSum]
      · simp [getPlanConfig, h1, h2, h3, targetsSum]
    · by_cases h4 : el.getD "" ∈ TWOTHREE_GRAD ∧ dd = some "학사"
      · simp [getPlanConfig, h1, h2, h4, targetsSum]
      · by_cases h5 : el.getD "" ∈ GRAD_ALL
        · simp [getPlanConfig, h1, h2, h4, h5, targetsSum]
        · simp [getPlanConfig, h1, h2, h4, h5, targetsSum]

/-- Claim C9: the progress percentage `min(round(total / totalTarget * 100),
100)` lies in `[0, 100]` for every earned total and every resolver profile
(whose total target is positive in every branch); in particular 90 earned
against a 51-credit target reads 100, not 176. -/
theorem C9_progress_in_range :
    ∀ (el cn dd : Option String) (total : Nat),
      0 < (getPlanConfig el cn dd).totalTarget ∧
      0 ≤ progress total (getPlanConfig el cn dd).totalTarget ∧
      progress total (getPlanConfig el cn dd).totalTarget ≤ 100 ∧
      progress 90 51 = 100 := by
  intro el cn dd total
  exact ⟨getPlanConfig_totalTarget_pos el cn dd, Nat.zero_le _,
    Nat.min_le_right _ _, by decide⟩

/-- Adding `n` to one category adds `n` to the sum of all categories. -/
lemma sumByCategory_bumpCat (f : SubjectCategory → Nat) (c : SubjectCategory)
    (n : Nat) : sumByCategory (bumpCat f c n) = sumByCategory f + n := by
  cases c <;> simp [sumByCategory, bumpCat] <;> omega

/-- Folding a list into the category map adds exactly the credits of the
assigned ids that resolve in the catalog. -/
lemma sumByCategory_foldl_assigned (l : List Nat) (subjects : List Subject)
    (f0 : SubjectCategory → Nat) :
    sumByCategory (l.foldl (fun f sid =>
        match subjects.find? (fun s => s.id == sid) with
        | some s => bumpCat f s.category s.credits
        | none => f) f0)
      = sumByCategory f0 + (l.map (fun sid =>
          match subjects.find? (fun s => s.id == sid) with
          | some s => s.credits
          | none => 0)).sum := by
  induction l generalizing f0 with
  | nil => simp
  | cons a t ih =>
    cases hfind : subjects.find? (fun s => s.id == a) with
    | none =>
        simp only [List.foldl_cons, hfind, List.map_cons, List.sum_cons]
        rw [ih]
        omega
    | some s =>
        simp only [List.foldl_cons, hfind, List.map_cons, List.sum_cons]
        rw [ih, sumByCategory_bumpCat]
        omega

/-- Folding the prior-institution subjects adds exactly their credits. -/
lemma sumByCategory_foldl_prev (l : List PrevSubject)
    (f0 : SubjectCategory → Nat) :
    sumByCategory (l.foldl (fun f s => bumpCat f s.category s.credits) f0)
      = sumByCategory f0 + (l.map (·.credits)).sum := by
  induction l generalizing f0 with
  | nil => simp
  | cons a t ih => rw [List.foldl_cons, ih, sumByCategory_bumpCat]; simp; omega

/-- Folding the self-study entries adds exactly their credits. -/
lemma sumByCategory_foldl_dokaksa (l : List DokaksaEntry)
    (f0 : SubjectCategory → Nat) :
    sumByCategory (l.foldl (fun f d => bumpCat f d.credit_type d.credits) f0)
      = sumByCategory f0 + (l.map (·.credits)).sum := by
  induction l generalizing f0 with
  | nil => simp
  | cons a t ih => rw [List.foldl_cons, ih, sumByCategory_bumpCat]; simp; omega

/-- A left fold accumulating `+ g x` is the sum of the mapped list. -/
lemma foldl_add_eq_sum {α : Type} (l : List α) (g : α → Nat) (init : Nat) :
    l.foldl (fun s x => s + g x) init = init + (l.map g).sum := by
  induction l generalizing init with
  | nil => simp
  | cons a t ih => rw [List.foldl_cons, ih]; simp; omega

/-- Claim C5: the grand total equals the sum of the per-category map plus
the certificate total; self-study credits are folded into the category map
exactly once (the category sum decomposes as assigned + prior + self-study
credits, with no second addition of the self-study total); and on the
spec's concrete example — assigned subjects totaling 20 major credits, one
prior-institution major subject of 3 credits, one self-study entry of 4
credits typed major — the 전공 bucket reads 27. -/
theorem C5_totalCredits_aggregation :
    (∀ (m : SubjMap) (subjects : List Subject) (prev : List PrevSubject)
        (dok : List DokaksaEntry) (certs : List CreditCert),
      totalCredits m subjects prev dok certs
        = sumByCategory (creditsByCategory m subjects prev dok)
            + certCredits certs) ∧
    (∀ (m : SubjMap) (subjects : List Subject) (prev : List PrevSubject)
        (dok : List DokaksaEntry),
      sumByCategory (creditsByCategory m subjects prev dok)
        = assignedCreditsTotal m subjects + prevCreditsTotal prev
            + dokaksaCredits dok) ∧
    creditsByCategory [(0, [1, 2])]
      [⟨1, SubjectCategory.major, "사회복지학개론", 10, false, none, none⟩,
       ⟨2, SubjectCategory.major, "사회복지실천론", 10, false, none, none⟩]
      [⟨"p1", "s1", SubjectCategory.major, "전적대과목", 3⟩]
      [⟨"d1", "s1", "2단계", "독학사과목", 4, SubjectCategory.major⟩]
      SubjectCategory.major = 27 := by
  refine ⟨fun m subjects prev dok certs => rfl, fun m subjects prev dok => ?_,
    by decide⟩
  unfold creditsByCategory
  rw [sumByCategory_foldl_dokaksa, sumByCategory_foldl_prev,
    sumByCategory_foldl_assigned]
  simp [assignedCreditsTotal, prevCreditsTotal, dokaksaCredits,
    foldl_add_eq_sum, sumByCategory]

/-- Counterexample for claim C6: the manual-entry insertion path
(`handleAddDokaksa`) does not assign `credit_type` by the stage rule — with
the form stage 1단계 the inserted row carries no `credit_type` at all
(the rule would demand 교양/`liberal`). -/
theorem C6_counterexample_manual_add_no_credit_type :
    (handleAddDokaksaRow "1단계" "국어" 4).credit_type = none ∧
    (handleAddDokaksaRow "1단계" "국어" 4).credit_type
      ≠ some SubjectCategory.liberal := by
  exact ⟨rfl, by decide⟩

/-- Claim C6 (amended): the preset-toggle insertion path assigns
`credit_type` by the rule — form stage 1단계 → 교양; any other stage →
전공 when the student's major is set, non-empty and string-equal to the
preset's category, else 일반 — while the manual-entry path
(`handleAddDokaksa`) sets no `credit_type` in its insert (the column is
left to the database). -/
theorem C6_amended_dokaksa_credit_type :
    ∀ (stage : String) (major : Option String) (preset : DokaksaPreset),
      (stage = "1단계" →
        (handleToggleDokaksaPresetRow stage major preset).credit_type
          = some SubjectCategory.liberal) ∧
      (stage ≠ "1단계" → ∀ m : String, major = some m → m ≠ "" →
        preset.category = m →
        (handleToggleDokaksaPresetRow stage major preset).credit_type
          = some SubjectCategory.major) ∧
      (stage ≠ "1단계" →
        (match major with
         | some m => m = "" ∨ preset.category ≠ m
         | none => True) →
        (handleToggleDokaksaPresetRow stage major preset).credit_type
          = some SubjectCategory.general) ∧
      (∀ (nm : String) (cr : Nat),
        (handleAddDokaksaRow stage nm cr).credit_type = none) := by
  intro stage major preset
  refine ⟨fun h1 => ?_, fun h1 m hm hne hcat => ?_, fun h1 hmaj => ?_,
    fun nm cr => rfl⟩
  · simp [handleToggleDokaksaPresetRow, dokaksaToggleCreditType, h1]
  · subst hm hcat
    simp [handleToggleDokaksaPresetRow, dokaksaToggleCreditType, h1, hne]
  · cases major with
    | none =>
        simp [handleToggleDokaksaPresetRow, dokaksaToggleCreditType, h1]
    | some m =>
        rcases hmaj with hm | hm
        · simp [handleToggleDokaksaPresetRow, dokaksaToggleCreditType, h1, hm]
        · simp [handleToggleDokaksaPresetRow, dokaksaToggleCreditType, h1, hm]

/-- Witness for the amended C6: a stage-1 preset toggle yields 교양, a
stage-2 toggle matching the student's major yields 전공. -/
theorem C6_amended_dokaksa_credit_type_witness :
    (handleToggleDokaksaPresetRow "1단계" (some "국어국문학")
        ⟨"1단계", "교양", "국어", 4, true, 1⟩).credit_type
      = some SubjectCategory.liberal ∧
    (handleToggleDokaksaPresetRow "2단계" (some "국어국문학")
        ⟨"2단계", "국어국문학", "국어학개론", 5, true, 1⟩).credit_type
      = some SubjectCategory.major :=
  ⟨(C6_amended_dokaksa_credit_type "1단계" (some "국어국문학")
      ⟨"1단계", "교양", "국어", 4, true, 1⟩).1 rfl,
   (C6_amended_dokaksa_credit_type "2단계" (some "국어국문학")
      ⟨"2단계", "국어국문학", "국어학개론", 5, true, 1⟩).2.1 (by decide)
      "국어국문학" rfl (by decide) rfl⟩

/-- Looking a key up in an entrywise value-mapped record maps the stored
value. -/
lemma lookupEntry_map_val {α β : Type} (g : α → β) (m : List (Nat × α))
    (k : Nat) :
    lookupEntry (m.map (fun e => (e.1, g e.2))) k
      = (lookupEntry m k).map g := by
  induction m with
  | nil => rfl
  | cons e rest ih =>
      by_cases h : (e.1 == k) = true
      · simp [lookupEntry, h]
      · simp only [Bool.not_eq_true] at h
        simp [lookupEntry, h, ih]

/-- Claim C10: after a subject deletion the assignment map is rebuilt with
the deleted id filtered out of every semester's list, so every post-state
list is the pre-state list minus that id and no semester retains a
reference to the deleted subject. -/
theorem C10_delete_subject_cascades :
    ∀ (m : SubjMap) (subjectId : Nat),
      (∀ k : Nat, lookupD (handleDeleteSubject m subjectId) k
          = (lookupD m k).filter (fun sid => sid != subjectId)) ∧
      (handleDeleteSubject m subjectId).all
        (fun e => !(e.2.contains subjectId)) = true := by
  intro m subjectId
  constructor
  · intro k
    unfold handleDeleteSubject lookupD
    rw [lookupEntry_map_val]
    cases lookupEntry m k with
    | none => rfl
    | some w => rfl
  · simp only [handleDeleteSubject, List.all_eq_true, List.mem_map]
    rintro e ⟨e₀, he₀, rfl⟩
    simp

-- ── Association-list lemmas ─────────────────────────────────────────────

lemma lookupEntry_setKey_self {α : Type} (m : List (Nat × α)) (k : Nat)
    (v : α) : lookupEntry (setKey m k v) k = some v := by
  induction m with
  | nil => simp [setKey, lookupEntry]
  | cons e rest ih =>
      by_cases h : (e.1 == k) = true
      · simp [setKey, h, lookupEntry]
      · simp only [Bool.not_eq_true] at h
        simp [setKey, h, lookupEntry, ih]

lemma lookupEntry_setKey_ne {α : Type} (m : List (Nat × α)) (k k' : Nat)
    (v : α) (hne : k' ≠ k) :
    lookupEntry (setKey m k v) k' = lookupEntry m k' := by
  induction m with
  | nil =>
      have : (k == k') = false := by simpa using fun h => hne h.symm
      simp [setKey, lookupEntry, this]
  | cons e rest ih =>
      by_cases h : (e.1 == k) = true
      · have he : e.1 = k := by simpa using h
        have hkk' : (k == k') = false := by
          simpa using fun hh => hne hh.symm
        have hek' : (e.1 == k') = false := by rw [he]; exact hkk'
        simp [setKey, h, lookupEntry, hkk', hek']
      · simp only [Bool.not_eq_true] at h
        by_cases h' : (e.1 == k') = true
        · simp [setKey, h, lookupEntry, h']
        · simp only [Bool.not_eq_true] at h'
          simp [setKey, h, lookupEntry, h', ih]

lemma lookupD_setKey_self (m : SubjMap) (k : Nat) (v : List Nat) :
    lookupD (setKey m k v) k = v := by
  simp [lookupD, lookupEntry_setKey_self]

lemma lookupD_setKey_ne (m : SubjMap) (k k' : Nat) (v : List Nat)
    (hne : k' ≠ k) : lookupD (setKey m k v) k' = lookupD m k' := by
  simp [lookupD, lookupEntry_setKey_ne m k k' v hne]

lemma lookupEntry_some_mem {α : Type} {m : List (Nat × α)} {k : Nat} {w : α}
    (h : lookupEntry m k = some w) : (k, w) ∈ m := by
  induction m with
  | nil => simp [lookupEntry] at h
  | cons e rest ih =>
      obtain ⟨e1, e2⟩ := e
      by_cases he : (e1 == k) = true
      · have he' : e1 = k := by simpa using he
        simp only [lookupEntry, he, if_true, Option.some.injEq] at h
        subst he' h
        exact List.mem_cons_self _ _
      · simp only [Bool.not_eq_true] at he
        simp only [lookupEntry, he, Bool.false_eq_true, if_false] at h
        exact List.mem_cons_of_mem _ (ih h)

lemma countP_setKey_of_none {α : Type} (m : List (Nat × α)) (k : Nat) (v : α)
    (p : Nat × α → Bool) (h : lookupEntry m k = none) :
    (setKey m k v).countP p = m.countP p + (if p (k, v) then 1 else 0) := by
  induction m with
  | nil => simp [setKey, List.countP_cons]
  | cons e rest ih =>
      by_cases he : (e.1 == k) = true
      · simp [lookupEntry, he] at h
      · simp only [Bool.not_eq_true] at he
        simp only [lookupEntry, he] at h
        simp only [setKey, he, Bool.false_eq_true, if_false, List.countP_cons,
          ih h]
        omega

lemma countP_setKey_of_some {α : Type} (m : List (Nat × α)) (k : Nat)
    (v w : α) (p : Nat × α → Bool) (h : lookupEntry m k = some w) :
    (setKey m k v).countP p + (if p (k, w) then 1 else 0)
      = m.countP p + (if p (k, v) then 1 else 0) := by
  induction m with
  | nil => simp [lookupEntry] at h
  | cons e rest ih =>
      obtain ⟨e1, e2⟩ := e
      by_cases he : (e1 == k) = true
      · have he' : e1 = k := by simpa using he
        simp only [lookupEntry, he, if_true, Option.some.injEq] at h
        subst he' h
        simp only [setKey, beq_self_eq_true, if_true, List.countP_cons]
        omega
      · simp only [Bool.not_eq_true] at he
        simp only [lookupEntry, he, Bool.false_eq_true, if_false] at h
        simp only [setKey, he, Bool.false_eq_true, if_false, List.countP_cons]
        have := ih h
        omega

lemma keys_setKey_subset {α : Type} (m : List (Nat × α)) (k : Nat) (v : α) :
    ∀ a ∈ (setKey m k v).map (·.1), a ∈ m.map (·.1) ∨ a = k := by
  induction m with
  | nil => simp [setKey]
  | cons e rest ih =>
      intro a ha
      by_cases he : (e.1 == k) = true
      · simp only [setKey, he, if_true, List.map_cons, List.mem_cons] at ha
        rcases ha with ha | ha
        · right; exact ha
        · left; exact List.mem_cons_of_mem _ ha
      · simp only [Bool.not_eq_true] at he
        simp only [setKey, he, Bool.false_eq_true, if_false, List.map_cons,
          List.mem_cons] at ha
        rcases ha with ha | ha
        · left; simp [ha]
        · rcases ih a ha with h' | h'
          · left; exact List.mem_cons_of_mem _ h'
          · right; exact h'

lemma keysNodup_setKey (m : SubjMap) (k : Nat) (v : List Nat)
    (h : keysNodup m) : keysNodup (setKey m k v) := by
  induction m with
  | nil => simp [keysNodup, setKey]
  | cons e rest ih =>
      by_cases he : (e.1 == k) = true
      · have he' : e.1 = k := by simpa using he
        unfold keysNodup at h ⊢
        simp only [setKey, he, if_true, List.map_cons, List.nodup_cons] at h ⊢
        exact ⟨he' ▸ h.1, h.2⟩
      · simp only [Bool.not_eq_true] at he
        unfold keysNodup at h ⊢
        simp only [setKey, he, Bool.false_eq_true, if_false, List.map_cons,
          List.nodup_cons] at h ⊢
        refine ⟨fun hmem => ?_, ih h.2⟩
        rcases keys_setKey_subset rest k v e.1 hmem with h' | h'
        · exact h.1 h'
        · rw [h'] at he
          simp at he

-- ── Utilities for the capacity and uniqueness invariants ────────────────

lemma not_used_entry (st : PlanState) (sid : Nat)
    (h : isSubjectUsed st sid = false) :
    ∀ e ∈ st.semesterSubjects, sid ∉ e.2 := by
  intro e he hmem
  have hfl : sid ∈ (st.semesterSubjects.map (·.2)).flatten :=
    List.mem_flatten.mpr ⟨e.2, List.mem_map_of_mem _ he, hmem⟩
  have hc : isSubjectUsed st sid = true := by
    simpa [isSubjectUsed, assignedIdsOf] using hfl
  rw [h] at hc
  exact Bool.noConfusion hc

lemma countP_contains_zero_of_not_used (st : PlanState) (sid : Nat)
    (h : isSubjectUsed st sid = false) :
    st.semesterSubjects.countP (fun e => e.2.contains sid) = 0 := by
  refine List.countP_eq_zero.mpr (fun e he hc => ?_)
  exact not_used_entry st sid h e he (by simpa using hc)

lemma countP_id_le_one (l : List Semester)
    (hnd : (l.map (·.id)).Nodup) (target : Nat) :
    l.countP (fun s => s.id == target) ≤ 1 := by
  induction l with
  | nil => simp
  | cons a t ih =>
      simp only [List.map_cons, List.nodup_cons] at hnd
      by_cases ha : (a.id == target) = true
      · have ha' : a.id = target := by simpa using ha
        have hz : t.countP (fun s => s.id == target) = 0 := by
          refine List.countP_eq_zero.mpr (fun s hs hc => ?_)
          have hs' : s.id = target := by simpa using hc
          have hm : s.id ∈ t.map (·.id) := List.mem_map_of_mem (·.id) hs
          rw [hs', ← ha'] at hm
          exact hnd.1 hm
        simp [List.countP_cons, ha, hz]
      · simp only [Bool.not_eq_true] at ha
        simp only [List.countP_cons, ha, Bool.false_eq_true, if_false,
          Nat.add_zero]
        exact ih hnd.2

lemma find?_eq_some_of_nodup (l : List Semester)
    (hnd : (l.map (·.id)).Nodup) (c : Semester) (hc : c ∈ l) (k : Nat)
    (hk : c.id = k) : l.find? (fun s => s.id == k) = some c := by
  induction l with
  | nil => exact absurd hc (List.not_mem_nil c)
  | cons a t ih =>
      simp only [List.map_cons, List.nodup_cons] at hnd
      by_cases ha : (a.id == k) = true
      · have ha' : a.id = k := by simpa using ha
        rcases List.mem_cons.mp hc with h | h
        · rw [@List.find?_cons_of_pos _ (fun s => s.id == k) a t ha, h]
        · have hm : c.id ∈ t.map (·.id) := List.mem_map_of_mem (·.id) h
          rw [hk, ← ha'] at hm
          exact absurd hm hnd.1
      · have hca : c ≠ a := by
          intro hh
          apply ha
          rw [← hh, hk]
          simp
        have hct : c ∈ t := by
          rcases List.mem_cons.mp hc with h | h
          · exact absurd h hca
          · exact h
        rw [@List.find?_cons_of_neg _ (fun s => s.id == k) a t ha]
        exact ih hnd.2 hct

lemma sum_lookup_setKey_le (l : List Semester) (m : SubjMap) (target : Nat)
    (v : List Nat) (hlen : v.length = (lookupD m target).length + 1) :
    (l.map (fun s => (lookupD (setKey m target v) s.id).length)).sum
      ≤ (l.map (fun s => (lookupD m s.id).length)).sum
          + l.countP (fun s => s.id == target) := by
  induction l with
  | nil => simp
  | cons a t ih =>
      simp only [List.map_cons, List.sum_cons, List.countP_cons]
      by_cases ha : a.id = target
      · rw [ha, lookupD_setKey_self, hlen]
        simp only [beq_self_eq_true, if_true]
        omega
      · have hb : (a.id == target) = false := by simp [ha]
        rw [lookupD_setKey_ne m target a.id v ha]
        simp only [hb, Bool.false_eq_true, if_false]
        omega

lemma groupSum_le_stringSum (st : PlanState) (c : Semester) :
    groupSum st c.year c.term
      ≤ ((st.semesters.filter (fun s => groupKey s == groupKey c)).map
          (fun s => (lookupD st.semesterSubjects s.id).length)).sum := by
  refine List.Sublist.sum_le_sum (List.Sublist.map _
    (List.monotone_filter_right _ (fun s hs => ?_))) (fun a _ => Nat.zero_le a)
  simp only [Bool.and_eq_true, beq_iff_eq] at hs
  simp [groupKey, hs.1, hs.2]

lemma handleSubjectClick_semesters (st : PlanState) (sid : Nat) :
    (handleSubjectClick st sid).semesters = st.semesters := by
  by_cases h : isSubjectUsed st sid = true
  · simp [handleSubjectClick, h]
  · simp only [Bool.not_eq_true] at h
    simp only [handleSubjectClick, h, Bool.false_eq_true, if_false]
    split
    · rfl
    · split <;> rfl

lemma handleSubjectClick_selected (st : PlanState) (sid : Nat) :
    (handleSubjectClick st sid).selectedSemester = st.selectedSemester := by
  by_cases h : isSubjectUsed st sid = true
  · simp [handleSubjectClick, h]
  · simp only [Bool.not_eq_true] at h
    simp only [handleSubjectClick, h, Bool.false_eq_true, if_false]
    split
    · rfl
    · split <;> rfl

lemma countP_filter_le_countP {α : Type} (l : List α) (p q : α → Bool) :
    (l.filter p).countP q ≤ l.countP q :=
  List.Sublist.countP_le q (List.filter_sublist l)


lemma groupSum_setKey_le (st : PlanState) (k : Nat) (v : List Nat)
    (y : String) (tm : Nat)
    (hlen : v.length = (lookupD st.semesterSubjects k).length + 1) :
    groupSum { st with semesterSubjects := setKey st.semesterSubjects k v } y tm
      ≤ groupSum st y tm
        + (st.semesters.filter (fun x => x.year == y && x.term == tm)).countP
            (fun x => x.id == k) :=
  sum_lookup_setKey_le _ _ _ _ hlen

lemma yearSum_setKey_le (st : PlanState) (k : Nat) (v : List Nat) (y : String)
    (hlen : v.length = (lookupD st.semesterSubjects k).length + 1) :
    getYearSubjectCount
        { st with semesterSubjects := setKey st.semesterSubjects k v } y
      ≤ getYearSubjectCount st y
        + (st.semesters.filter (fun x => x.year == y)).countP
            (fun x => x.id == k) :=
  sum_lookup_setKey_le _ _ _ _ hlen

lemma handleSubjectClick_caps (st : PlanState) (sid : Nat)
    (hnd : semIdsNodup st) (hcaps : CapsOK st) :
    CapsOK (handleSubjectClick st sid) := by
  by_cases hused : isSubjectUsed st sid = true
  · simp only [handleSubjectClick, hused, if_true]
    exact hcaps
  · simp only [Bool.not_eq_true] at hused
    cases hfind : st.semesters.find?
        (fun s => s.id == st.selectedSemester) with
    | none =>
        simp only [handleSubjectClick, hused, Bool.false_eq_true, if_false,
          hfind]
        split
        · exact hcaps
        split
        · exact hcaps
        intro s hs
        have hz : ∀ p : Semester → Bool,
            (st.semesters.filter p).countP
              (fun x => x.id == st.selectedSemester) = 0 := by
          intro p
          refine List.countP_eq_zero.mpr (fun x hx hc => ?_)
          exact (List.find?_eq_none.mp hfind) x (List.mem_of_mem_filter hx) hc
        constructor
        · have hb := groupSum_setKey_le st st.selectedSemester
            (lookupD st.semesterSubjects st.selectedSemester ++ [sid])
            s.year s.term (by simp)
          rw [hz] at hb
          have h8 := (hcaps s hs).1
          omega
        · have hb := yearSum_setKey_le st st.selectedSemester
            (lookupD st.semesterSubjects st.selectedSemester ++ [sid])
            s.year (by simp)
          rw [hz] at hb
          have h14 := (hcaps s hs).2
          omega
    | some c =>
        have hcid : c.id = st.selectedSemester := by
          simpa using List.find?_some hfind
        have hcmem : c ∈ st.semesters := List.mem_of_find?_eq_some hfind
        simp only [handleSubjectClick, hused, Bool.false_eq_true, if_false,
          hfind]
        split
        · exact hcaps
        next hg =>
          split
          · exact hcaps
          next hy =>
            intro s hs
            have hcnt1 : ∀ p : Semester → Bool,
                (st.semesters.filter p).countP
                  (fun x => x.id == st.selectedSemester) ≤ 1 :=
              fun p => le_trans (countP_filter_le_countP _ _ _)
                (countP_id_le_one st.semesters hnd st.selectedSemester)
            constructor
            · have hb := groupSum_setKey_le st st.selectedSemester
                (lookupD st.semesterSubjects st.selectedSemester ++ [sid])
                s.year s.term (by simp)
              rcases Nat.eq_zero_or_pos
                  ((st.semesters.filter
                    (fun x => x.year == s.year && x.term == s.term)).countP
                    (fun x => x.id == st.selectedSemester)) with hcz | hcpos
              · rw [hcz] at hb
                have h8 := (hcaps s hs).1
                omega
              · obtain ⟨x, hxf, hxid⟩ := List.countP_pos_iff.mp hcpos
                have hxid' : x.id = st.selectedSemester := by simpa using hxid
                have hxc : x = c := List.inj_on_of_nodup_map hnd
                  (List.mem_of_mem_filter hxf) hcmem (by rw [hxid', hcid])
                have hpair := List.of_mem_filter hxf
                rw [hxc] at hpair
                simp only [Bool.and_eq_true, beq_iff_eq] at hpair
                have hgs : groupSum st s.year s.term
                    = groupSum st c.year c.term := by
                  rw [hpair.1, hpair.2]
                have hle := groupSum_le_stringSum st c
                have hcnt := hcnt1
                  (fun x => x.year == s.year && x.term == s.term)
                rw [hgs] at hb
                omega
            · have hb := yearSum_setKey_le st st.selectedSemester
                (lookupD st.semesterSubjects st.selectedSemester ++ [sid])
                s.year (by simp)
              rcases Nat.eq_zero_or_pos
                  ((st.semesters.filter (fun x => x.year == s.year)).countP
                    (fun x => x.id == st.selectedSemester)) with hcz | hcpos
              · rw [hcz] at hb
                have h14 := (hcaps s hs).2
                omega
              · obtain ⟨x, hxf, hxid⟩ := List.countP_pos_iff.mp hcpos
                have hxid' : x.id = st.selectedSemester := by simpa using hxid
                have hxc : x = c := List.inj_on_of_nodup_map hnd
                  (List.mem_of_mem_filter hxf) hcmem (by rw [hxid', hcid])
                have hyear := List.of_mem_filter hxf
                rw [hxc] at hyear
                simp only [beq_iff_eq] at hyear
                have hys : getYearSubjectCount st s.year
                    = getYearSubjectCount st c.year := by rw [hyear]
                have hcnt := hcnt1 (fun x => x.year == s.year)
                rw [hys] at hb
                omega

instance (st : PlanState) : Decidable (semIdsNodup st) :=
  inferInstanceAs (Decidable ((st.semesters.map (fun s : Semester => s.id)).Nodup))

instance (st : PlanState) : Decidable (CapsOK st) :=
  inferInstanceAs (Decidable (∀ s ∈ st.semesters,
    groupSum st s.year s.term ≤ MAX_PER_SEMESTER ∧
    getYearSubjectCount st s.year ≤ MAX_PER_YEAR))

instance (m : SubjMap) : Decidable (keysNodup m) :=
  inferInstanceAs (Decidable ((m.map (fun e : Nat × List Nat => e.1)).Nodup))

lemma semIdsNodup_click (st : PlanState) (sid : Nat)
    (h : semIdsNodup st) : semIdsNodup (handleSubjectClick st sid) := by
  unfold semIdsNodup
  rw [handleSubjectClick_semesters]
  exact h

/-- Claim C3: starting from a plan state within bounds (with pairwise
distinct semester ids, as every construction path of the page guarantees),
any sequence of subject-assignment attempts and semester selections keeps
every half-year group at or below 8 assigned subjects and every year at or
below 14; and an assignment attempt on a selected semester whose group or
year is already at its cap is rejected with the whole state unchanged. -/
theorem C3_capacity_caps :
    (∀ (st : PlanState) (ops : List PlanOp),
      (∀ op ∈ ops, isAssignOp op = true) →
      semIdsNodup st → CapsOK st → CapsOK (applyOps st ops)) ∧
    (∀ (st : PlanState) (c : Semester) (sid : Nat),
      semIdsNodup st → c ∈ st.semesters → c.id = st.selectedSemester →
      (MAX_PER_SEMESTER ≤ groupSum st c.year c.term ∨
        MAX_PER_YEAR ≤ getYearSubjectCount st c.year) →
      handleSubjectClick st sid = st) := by
  constructor
  · intro st ops hops hnd hcaps
    induction ops generalizing st with
    | nil => simpa [applyOps] using hcaps
    | cons op rest ih =>
        have hop : isAssignOp op = true := hops op (List.mem_cons_self op rest)
        have hrest : ∀ o ∈ rest, isAssignOp o = true :=
          fun o ho => hops o (List.mem_cons_of_mem _ ho)
        simp only [applyOps, List.foldl_cons]
        cases op with
        | click sid =>
            exact ih (handleSubjectClick st sid) hrest
              (semIdsNodup_click st sid hnd)
              (handleSubjectClick_caps st sid hnd hcaps)
        | select semId => exact ih _ hrest hnd hcaps
        | removeAssigned sid => simp [isAssignOp] at hop
        | dateChange a b c => simp [isAssignOp] at hop
        | updateYear a b => simp [isAssignOp] at hop
        | updateTerm a b => simp [isAssignOp] at hop
        | confirmAddSemester a b => simp [isAssignOp] at hop
        | addKisu => simp [isAssignOp] at hop
        | deleteSemester a => simp [isAssignOp] at hop
        | deleteSubject a => simp [isAssignOp] at hop
  · intro st c sid hnd hc hcid hcap
    by_cases hused : isSubjectUsed st sid = true
    · simp [handleSubjectClick, hused]
    · simp only [Bool.not_eq_true] at hused
      have hfind : st.semesters.find?
          (fun s => s.id == st.selectedSemester) = some c :=
        find?_eq_some_of_nodup st.semesters hnd c hc st.selectedSemester hcid
      simp only [handleSubjectClick, hused, Bool.false_eq_true, if_false,
        hfind]
      rcases hcap with hcap | hcap
      · have hstr := le_trans hcap (groupSum_le_stringSum st c)
        split
        · rfl
        · next hgn => exact absurd hstr hgn
      · split
        · rfl
        · simp [hcap]

/-- Witness for C3: from the seeded two-semester empty plan a short
click/select sequence stays within bounds, and a ninth click on a full
half-year group is a no-op. -/
theorem C3_capacity_caps_witness :
    CapsOK (applyOps ⟨INITIAL_SEMESTERS, [], [], 0⟩
        [PlanOp.click 5, PlanOp.select 1, PlanOp.click 7]) ∧
    handleSubjectClick
        ⟨INITIAL_SEMESTERS, [(0, [1, 2, 3, 4, 5, 6, 7, 8])], [], 0⟩ 9
      = ⟨INITIAL_SEMESTERS, [(0, [1, 2, 3, 4, 5, 6, 7, 8])], [], 0⟩ :=
  ⟨C3_capacity_caps.1 ⟨INITIAL_SEMESTERS, [], [], 0⟩
      [PlanOp.click 5, PlanOp.select 1, PlanOp.click 7]
      (by decide) (by decide) (by decide),
   C3_capacity_caps.2 ⟨INITIAL_SEMESTERS, [(0, [1, 2, 3, 4, 5, 6, 7, 8])],
      [], 0⟩ ⟨0, "2025", 1, 1, "", ""⟩ 9 (by decide) (by decide) rfl
      (Or.inl (by decide))⟩

lemma uniqueAssign_setKey_append (m : SubjMap) (k : Nat) (sid : Nat)
    (hnotused : ∀ e ∈ m, sid ∉ e.2) (hu : UniqueAssign m) :
    UniqueAssign (setKey m k (lookupD m k ++ [sid])) := by
  intro sid'
  by_cases hss : sid' = sid
  · subst hss
    have h0 : m.countP (fun e => e.2.contains sid') = 0 :=
      List.countP_eq_zero.mpr
        (fun e he hc => hnotused e he (by simpa using hc))
    cases hLE : lookupEntry m k with
    | none =>
        have heq := countP_setKey_of_none m k (lookupD m k ++ [sid'])
          (fun e => e.2.contains sid') hLE
        rw [h0] at heq
        split at heq <;> omega
    | some w =>
        have heq := countP_setKey_of_some m k (lookupD m k ++ [sid']) w
          (fun e => e.2.contains sid') hLE
        have hwf : w.contains sid' = false := by
          have := hnotused (k, w) (lookupEntry_some_mem hLE)
          simpa using this
        rw [h0] at heq
        simp only [hwf, Bool.false_eq_true, if_false] at heq
        split at heq <;> omega
  · cases hLE : lookupEntry m k with
    | none =>
        have heq := countP_setKey_of_none m k (lookupD m k ++ [sid])
          (fun e => e.2.contains sid') hLE
        have hvf : (lookupD m k ++ [sid]).contains sid' = false := by
          simp [lookupD, hLE, hss]
        simp only [hvf, Bool.false_eq_true, if_false] at heq
        have := hu sid'
        omega
    | some w =>
        have heq := countP_setKey_of_some m k (lookupD m k ++ [sid]) w
          (fun e => e.2.contains sid') hLE
        have hvw : (lookupD m k ++ [sid]).contains sid' = w.contains sid' := by
          by_cases hw : sid' ∈ w
          · simp [lookupD, hLE, hw]
          · simp [lookupD, hLE, hw, hss]
        simp only [hvw] at heq
        have := hu sid'
        split at heq <;> omega

lemma uniqueAssign_setKey_subset (m : SubjMap) (k : Nat) (v w : List Nat)
    (hLE : lookupEntry m k = some w) (hsub : ∀ x ∈ v, x ∈ w)
    (hu : UniqueAssign m) : UniqueAssign (setKey m k v) := by
  intro sid'
  have heq := countP_setKey_of_some m k v w (fun e => e.2.contains sid') hLE
  have := hu sid'
  by_cases hv : v.contains sid' = true
  · have hw : w.contains sid' = true := by
      have : sid' ∈ w := hsub sid' (by simpa using hv)
      simpa using this
    simp only [hv, hw, if_true] at heq
    omega
  · simp only [Bool.not_eq_true] at hv
    simp only [hv, Bool.false_eq_true, if_false] at heq
    split at heq <;> omega

lemma uniqueAssign_eraseKey (m : SubjMap) (k : Nat) (hu : UniqueAssign m) :
    UniqueAssign (eraseKey m k) :=
  fun sid => le_trans
    (List.Sublist.countP_le _ (List.filter_sublist m)) (hu sid)

lemma keysNodup_eraseKey (m : SubjMap) (k : Nat) (hk : keysNodup m) :
    keysNodup (eraseKey m k) :=
  List.Nodup.sublist (List.Sublist.map _ (List.filter_sublist m)) hk

lemma uniqueAssign_deleteSubject (m : SubjMap) (sid₀ : Nat)
    (hu : UniqueAssign m) : UniqueAssign (handleDeleteSubject m sid₀) := by
  intro sid'
  unfold handleDeleteSubject
  rw [List.countP_map]
  refine le_trans (List.countP_mono_left (fun e _ hc => ?_)) (hu sid')
  have : sid' ∈ e.2.filter (fun x => x != sid₀) := by simpa using hc
  simpa using List.mem_of_mem_filter this

lemma keysNodup_deleteSubject (m : SubjMap) (sid₀ : Nat)
    (hk : keysNodup m) : keysNodup (handleDeleteSubject m sid₀) := by
  unfold keysNodup handleDeleteSubject
  rw [List.map_map]
  exact hk

lemma validAssign_applyOp (st : PlanState) (op : PlanOp)
    (hk : keysNodup st.semesterSubjects)
    (hu : UniqueAssign st.semesterSubjects) :
    keysNodup (applyOp st op).semesterSubjects ∧
      UniqueAssign (applyOp st op).semesterSubjects := by
  cases op with
  | click sid =>
      simp only [applyOp]
      by_cases hused : isSubjectUsed st sid = true
      · simp only [handleSubjectClick, hused, if_true]
        exact ⟨hk, hu⟩
      · simp only [Bool.not_eq_true] at hused
        simp only [handleSubjectClick, hused, Bool.false_eq_true, if_false]
        split
        · exact ⟨hk, hu⟩
        split
        · exact ⟨hk, hu⟩
        exact ⟨keysNodup_setKey _ _ _ hk,
          uniqueAssign_setKey_append st.semesterSubjects st.selectedSemester
            sid (not_used_entry st sid hused) hu⟩
  | select semId => exact ⟨hk, hu⟩
  | removeAssigned sid =>
      simp only [applyOp, handleRemoveAssigned]
      split
      · next sem hfind =>
          have hcont : (lookupD st.semesterSubjects sem.id).contains sid
              = true := by simpa using List.find?_some hfind
          cases hLE : lookupEntry st.semesterSubjects sem.id with
          | none =>
              rw [show lookupD st.semesterSubjects sem.id = [] from
                by simp [lookupD, hLE]] at hcont
              simp at hcont
          | some w =>
              have hlw : lookupD st.semesterSubjects sem.id = w := by
                simp [lookupD, hLE]
              refine ⟨keysNodup_setKey _ _ _ hk, ?_⟩
              rw [hlw]
              exact uniqueAssign_setKey_subset st.semesterSubjects sem.id
                (w.filter (fun i => i != sid)) w hLE
                (fun x hx => List.mem_of_mem_filter hx) hu
      · exact ⟨hk, hu⟩
  | dateChange a b c => exact ⟨hk, hu⟩
  | updateYear a b => exact ⟨hk, hu⟩
  | updateTerm a b => exact ⟨hk, hu⟩
  | confirmAddSemester a b => exact ⟨hk, hu⟩
  | addKisu =>
      simp only [applyOp, handleAddKisu]
      split
      · exact ⟨hk, hu⟩
      · exact ⟨hk, hu⟩
  | deleteSemester semId =>
      simp only [applyOp, handleDeleteSemester]
      split
      · exact ⟨hk, hu⟩
      · exact ⟨keysNodup_eraseKey _ _ hk, uniqueAssign_eraseKey _ _ hu⟩
  | deleteSubject sid =>
      exact ⟨keysNodup_deleteSubject _ _ hk, uniqueAssign_deleteSubject _ _ hu⟩

/-- Claim C4: from a state in which each subject id sits in at most one
semester's assignment list (and record keys are unique, as JavaScript
object keys are), every sequence of plan operations keeps each subject id
in at most one semester's assignment list; and clicking a subject that is
already assigned anywhere in the plan is a no-op that leaves the whole
state — in particular the assignment map — unchanged. -/
theorem C4_subject_uniqueness :
    (∀ (st : PlanState) (ops : List PlanOp),
      keysNodup st.semesterSubjects → UniqueAssign st.semesterSubjects →
      UniqueAssign (applyOps st ops).semesterSubjects) ∧
    (∀ (st : PlanState) (sid : Nat),
      isSubjectUsed st sid = true → handleSubjectClick st sid = st) := by
  constructor
  · have H : ∀ (ops : List PlanOp) (st : PlanState),
        keysNodup st.semesterSubjects → UniqueAssign st.semesterSubjects →
        keysNodup (applyOps st ops).semesterSubjects ∧
          UniqueAssign (applyOps st ops).semesterSubjects := by
      intro ops
      induction ops with
      | nil => exact fun st hk hu => ⟨hk, hu⟩
      | cons op rest ih =>
          intro st hk hu
          simp only [applyOps, List.foldl_cons]
          obtain ⟨a, b⟩ := validAssign_applyOp st op hk hu
          exact ih (applyOp st op) a b
    exact fun st ops hk hu => (H ops st hk hu).2
  · intro st sid h
    simp [handleSubjectClick, h]

/-- Witness for C4: an operation sequence mixing clicks, cohort selection,
unassignment and semester deletion preserves uniqueness from the empty
plan, and a click on the already-assigned subject 1 changes nothing. -/
theorem C4_subject_uniqueness_witness :
    UniqueAssign (applyOps ⟨INITIAL_SEMESTERS, [], [], 0⟩
        [PlanOp.click 1, PlanOp.click 2, PlanOp.select 1, PlanOp.click 3,
         PlanOp.removeAssigned 3, PlanOp.deleteSemester 1]).semesterSubjects ∧
    handleSubjectClick ⟨INITIAL_SEMESTERS, [(0, [1])], [], 0⟩ 1
      = ⟨INITIAL_SEMESTERS, [(0, [1])], [], 0⟩ :=
  ⟨C4_subject_uniqueness.1 ⟨INITIAL_SEMESTERS, [], [], 0⟩
      [PlanOp.click 1, PlanOp.click 2, PlanOp.select 1, PlanOp.click 3,
       PlanOp.removeAssigned 3, PlanOp.deleteSemester 1]
      (by decide) (fun sid => by simp),
   C4_subject_uniqueness.2 ⟨INITIAL_SEMESTERS, [(0, [1])], [], 0⟩ 1
      (by decide)⟩

lemma mergeFold_id (cs : List Semester) (A : List Semester) (n : Nat)
    (h : ∀ c ∈ cs, A.any (fun s => classStartMatches c s) = true) :
    (cs.foldl (fun acc cs' =>
        if acc.1.any (fun s => classStartMatches cs' s) then acc
        else (acc.1 ++ [{ cs' with id := acc.2 }], acc.2 + 1)) (A, n)).1
      = A := by
  induction cs generalizing n with
  | nil => rfl
  | cons c t ih =>
      have hc := h c (List.mem_cons_self c t)
      simp only [List.foldl_cons, hc, if_true]
      exact ih n (fun c' hc' => h c' (List.mem_cons_of_mem _ hc'))

/-- Claim C7: the class_start reconciliation is idempotent — when every
parsed cohort descriptor is already represented in the loaded semester list
(matched by year, term and cohort number), the parse-and-merge step leaves
the semester list unchanged: no semester is created, no duplicate appears. -/
theorem C7_classStart_merge_idempotent :
    ∀ (sems csItems : List Semester) (hasPlan : Bool),
      (∀ c ∈ csItems, sems.any (fun s => classStartMatches c s) = true) →
      mergeClassStart sems csItems hasPlan = sems := by
  intro sems cs hasPlan h
  cases cs with
  | nil => simp [mergeClassStart]
  | cons c t =>
      have hc := h c (List.mem_cons_self c t)
      have hAny : (c :: t).any
          (fun cs' => sems.any (fun s => classStartMatches cs' s)) = true := by
        simp only [List.any_cons, hc, Bool.true_or]
      simp only [mergeClassStart, hAny]
      rw [if_pos (by simp)]
      simp only [Bool.not_true, Bool.false_and, Bool.false_eq_true, if_false]
      exact mergeFold_id (c :: t) sems _ h

/-- Witness for C7: merging a descriptor already present in the seeded
semester list changes nothing. -/
theorem C7_classStart_merge_idempotent_witness :
    mergeClassStart INITIAL_SEMESTERS [⟨5, "2025", 1, 1, "", ""⟩] true
      = INITIAL_SEMESTERS :=
  C7_classStart_merge_idempotent INITIAL_SEMESTERS
    [⟨5, "2025", 1, 1, "", ""⟩] true (by decide)

lemma length_filter_eq_countP {α : Type} (l : List α) (p : α → Bool) :
    (l.filter p).length = l.countP p := by
  induction l with
  | nil => rfl
  | cons a t ih =>
      by_cases h : p a = true
      · simp [List.filter_cons, h, List.countP_cons, ih]
      · simp only [Bool.not_eq_true] at h
        simp [List.filter_cons, h, List.countP_cons, ih]

lemma countP_add_countP_not {α : Type} (l : List α) (p : α → Bool) :
    l.countP p + l.countP (fun a => !(p a)) = l.length := by
  induction l with
  | nil => rfl
  | cons a t ih =>
      by_cases h : p a = true
      · simp only [List.countP_cons, h, Bool.not_true, Bool.false_eq_true,
          if_false, if_true, List.length_cons]
        omega
      · simp only [Bool.not_eq_true] at h
        simp only [List.countP_cons, h, Bool.not_false, Bool.false_eq_true,
          if_false, if_true, List.length_cons]
        omega

lemma mem_of_head?_eq_some {α : Type} {l : List α} {a : α}
    (h : l.head? = some a) : a ∈ l := by
  cases l with
  | nil => simp at h
  | cons b t =>
      simp only [List.head?_cons, Option.some.injEq] at h
      rw [← h]
      exact List.mem_cons_self b t

/-- Claim C8: deleting a semester is rejected outright (all state
unchanged) when only one semester remains, so the plan always keeps at
least one semester; when it proceeds it removes the semester, cascades
removal of its assignment-list entry and its dates entry, and when the
deleted semester was selected the selection moves to a remaining cohort of
the same (year, term) group if one exists, else to the last remaining
semester overall. -/
theorem C8_delete_semester :
    (∀ (st : PlanState) (semId : Nat),
      st.semesters.length = 1 → handleDeleteSemester st semId = st) ∧
    (∀ (st : PlanState) (semId : Nat) (d : Semester),
      2 ≤ st.semesters.length → semIdsNodup st → d ∈ st.semesters →
      d.id = semId →
      (handleDeleteSemester st semId).semesters
          = st.semesters.filter (fun s => s.id != semId) ∧
      (handleDeleteSemester st semId).semesterSubjects
          = eraseKey st.semesterSubjects semId ∧
      (handleDeleteSemester st semId).semesterDates
          = eraseKey st.semesterDates semId ∧
      1 ≤ (handleDeleteSemester st semId).semesters.length ∧
      (st.selectedSemester = semId →
        ((st.semesters.filter (fun s => s.id != semId)).filter
            (fun s => groupKey s == groupKey d) ≠ [] →
          ∃ s₀ ∈ (st.semesters.filter (fun s => s.id != semId)).filter
              (fun s => groupKey s == groupKey d),
            (handleDeleteSemester st semId).selectedSemester = s₀.id) ∧
        ((st.semesters.filter (fun s => s.id != semId)).filter
            (fun s => groupKey s == groupKey d) = [] →
          ∃ s₀, (st.semesters.filter (fun s => s.id != semId)).getLast?
              = some s₀ ∧
            (handleDeleteSemester st semId).selectedSemester = s₀.id))) := by
  constructor
  · intro st semId h
    simp [handleDeleteSemester, h]
  · intro st semId d hlen hnd hd hdid
    have hnot : ¬ st.semesters.length ≤ 1 := by omega
    have hfind : st.semesters.find? (fun s => s.id == semId) = some d :=
      find?_eq_some_of_nodup _ hnd d hd _ hdid
    have hremlen :
        1 ≤ (st.semesters.filter (fun s => s.id != semId)).length := by
      have h1 := length_filter_eq_countP st.semesters
        (fun s => s.id != semId)
      have h2 := countP_add_countP_not st.semesters
        (fun s => s.id == semId)
      have h3 := countP_id_le_one st.semesters hnd semId
      have h4 : st.semesters.countP (fun s => !(s.id == semId))
          = st.semesters.countP (fun s => s.id != semId) := rfl
      omega
    simp only [handleDeleteSemester, if_neg hnot, hfind]
    refine ⟨by trivial, by trivial, by trivial, hremlen,
      fun hsel => ⟨fun hne => ?_, fun hemp => ?_⟩⟩
    · have hbeq : (st.selectedSemester == semId) = true := by simp [hsel]
      obtain ⟨s₀, hs₀⟩ : ∃ s₀,
          ((st.semesters.filter (fun s => s.id != semId)).filter
            (fun s => groupKey s == groupKey d)).head? = some s₀ :=
        ⟨_, List.head?_eq_head hne⟩
      refine ⟨s₀, mem_of_head?_eq_some hs₀, ?_⟩
      simp only [hbeq, if_true, hs₀]
    · have hbeq : (st.selectedSemester == semId) = true := by simp [hsel]
      have hremne : st.semesters.filter (fun s => s.id != semId) ≠ [] := by
        intro hh
        rw [hh] at hremlen
        simp at hremlen
      obtain ⟨s₀, hs₀⟩ : ∃ s₀,
          (st.semesters.filter (fun s => s.id != semId)).getLast?
            = some s₀ :=
        ⟨_, List.getLast?_eq_getLast _ hremne⟩
      refine ⟨s₀, hs₀, ?_⟩
      simp only [hbeq, if_true, hemp, List.head?_nil, hs₀]

/-- Witness for C8: deleting from a single-semester plan is a no-op, and a
deletion from the seeded two-semester plan keeps at least one semester. -/
theorem C8_delete_semester_witness :
    handleDeleteSemester ⟨[⟨0, "2025", 1, 1, "", ""⟩], [], [], 0⟩ 0
        = ⟨[⟨0, "2025", 1, 1, "", ""⟩], [], [], 0⟩ ∧
    1 ≤ (handleDeleteSemester
        ⟨INITIAL_SEMESTERS, [(0, [3]), (1, [4])], [], 0⟩ 0).semesters.length :=
  ⟨C8_delete_semester.1 ⟨[⟨0, "2025", 1, 1, "", ""⟩], [], [], 0⟩ 0 rfl,
   (C8_delete_semester.2 ⟨INITIAL_SEMESTERS, [(0, [3]), (1, [4])], [], 0⟩ 0
      ⟨0, "2025", 1, 1, "", ""⟩ (by decide) (by decide) (by decide)
      rfl).2.2.2.1⟩
